import Mathlib

/-!
Verification development for the double-layer HotStuff consensus simulator
(`backend/consensus_engine.py`, `backend/topology_manager.py`,
`backend/socket_handlers.py`, `backend/consensus_service.py`).

The Python code is shallowly embedded: node ids, views and counts are `Nat`
(the program only ever produces non-negative values for them; negative or
zero-node corner cases crash the Python process with `ZeroDivisionError`
before reaching the modelled logic), proposal values are `Int`, phases are
the literal strings the source uses, Python `dict`s are association lists
with in-place update, Python `set`s are duplicate-free lists in first-insert
order, and `None` is `Option.none`.  Network emission, timers and logging
have no effect on the consensus state and are omitted; the per-send counter
(`count_message_sent`), which does mutate the session, is modelled.
-/

/-- A quorum certificate, `{phase, view, value, signers, totalWeight}`
(`is_multi_layer` is the constant `True` in the source and is omitted). -/
structure QC where
  phase : String
  view : Nat
  value : Int
  signers : List Nat
  total_weight : Nat
deriving Repr, DecidableEq

/-- Per-node persistent safety state (`session["node_states"][i]`). -/
structure NodeState where
  lockedQC : Option QC
  prepareQC : Option QC
  highQC : Option QC
deriving Repr, DecidableEq

/-- The fresh node state installed by `create_session`. -/
def initNodeState : NodeState := ⟨none, none, none⟩

/-- `consensus_engine.get_quorum_threshold`: global quorum `2*((n-1)//3)+1`. -/
def get_quorum_threshold (n : Nat) : Nat := 2 * ((n - 1) / 3) + 1

/-- `consensus_engine.get_local_quorum_threshold`: `2*((groupSize-1)//3)+1`. -/
def get_local_quorum_threshold (group_size : Nat) : Nat := 2 * ((group_size - 1) / 3) + 1

/-- `consensus_engine.get_next_phase`: the phase-succession table; any string
outside the table falls through to the dictionary default `"prepare"`. -/
def get_next_phase (phase : String) : String :=
  if phase = "new-view" then "prepare"
  else if phase = "prepare" then "pre-commit"
  else if phase = "pre-commit" then "commit"
  else if phase = "commit" then "decide"
  else if phase = "decide" then "decide"
  else "prepare"

/-- `consensus_engine.qc_extends qc1 qc2`: `qc2` nil ⇒ true; `qc1` nil ⇒ false;
else `qc1.view > qc2.view ∧ qc1.value == qc2.value`. -/
def qc_extends (qc1 qc2 : Option QC) : Bool :=
  match qc2 with
  | none => true
  | some q2 =>
    match qc1 with
    | none => false
    | some q1 => q1.view > q2.view && q1.value == q2.value

/-- `consensus_engine.check_safe_node`, as a function of the node's
`lockedQC` (the only part of the session it reads). -/
def check_safe_node (lockedQC : Option QC) (proposal_view : Nat) (proposal_value : Int)
    (proposal_qc : Option QC) : Bool :=
  match lockedQC with
  | none => true
  | some locked =>
    if proposal_view > locked.view then true
    else
      match proposal_qc with
      | some _ => qc_extends proposal_qc (some locked)
      | none => proposal_value == locked.value && proposal_view ≥ locked.view

/-- `consensus_engine.update_node_locked_qc`: assign the commit QC iff the
current `lockedQC` is nil or the new view is strictly higher. -/
def update_node_locked_qc (current_locked : Option QC) (qc : QC) : Option QC :=
  match current_locked with
  | none => some qc
  | some cur => if qc.view > cur.view then some qc else some cur

/-- `consensus_engine.update_node_prepare_qc`: assign `prepareQC` (and mirror
into `highQC`) iff nil or strictly higher view. -/
def update_node_prepare_qc (ns : NodeState) (qc : QC) : NodeState :=
  match ns.prepareQC with
  | none => { ns with prepareQC := some qc, highQC := some qc }
  | some cur =>
    if qc.view > cur.view then { ns with prepareQC := some qc, highQC := some qc } else ns

/-- `socket_handlers.handle_qc_message`, restricted to one node's state:
update `prepareQC` unconditionally, `lockedQC` only on a commit-phase QC. -/
def handle_qc_message (ns : NodeState) (qc : QC) : NodeState :=
  if qc.phase = "commit" then
    { update_node_prepare_qc ns qc with
      lockedQC := update_node_locked_qc (update_node_prepare_qc ns qc).lockedQC qc }
  else update_node_prepare_qc ns qc

/-- `topology_manager.get_current_leader`: HotStuff rotation `view % n`. -/
def get_current_leader (view n : Nat) : Nat := view % n

/-- Result record of `topology_manager.get_topology_info`. -/
structure TopologyInfo where
  role : String
  parent_id : Option Nat
  group_id : Option Nat
  group_size : Option Nat
deriving Repr, DecidableEq

/-- `topology_manager.get_topology_info` as a pure function of
`(view, node_id, n, branch_count)` — the only session fields it reads. -/
def get_topology_info (view node_id n branch_count0 : Nat) : TopologyInfo :=
  let branch_count := max 1 branch_count0
  let global_leader_id := view % n
  if node_id = global_leader_id then ⟨"root", none, none, none⟩
  else
    let group_size := max 1 (n / branch_count)
    let group_id := node_id / group_size
    let group_start_id := group_id * group_size
    let group_end_id := min ((group_id + 1) * group_size) n
    let actual_group_size := group_end_id - group_start_id
    if node_id = group_start_id then
      ⟨"group_leader", some global_leader_id, some group_id, some actual_group_size⟩
    else
      ⟨"member", some group_start_id, some group_id, some actual_group_size⟩

/-- One recorded contribution in the global tally:
`{"from": voter, "weight": w, "group_voters": [...]}`. -/
structure Contribution where
  sender : Nat
  weight : Nat
  group_voters : List Nat
deriving Repr, DecidableEq

/-- `session["pending_votes"][(view, phase, value)]`:
`{"total_weight": …, "group_votes": […]}`. -/
structure PendingEntry where
  total_weight : Nat
  group_votes : List Contribution
deriving Repr, DecidableEq

/-- A `type == "vote"` message.  Non-group votes leave `weight`/`group_voters`
unread (the source defaults them with `.get`). -/
structure VoteMsg where
  sender : Nat
  target : Nat
  value : Int
  phase : String
  view : Nat
  round : Nat
  is_group_vote : Bool
  weight : Nat
  group_voters : List Nat
deriving Repr, DecidableEq

/-- A `type == "qc"` message (`to` is the constant `"group_leaders"`). -/
structure QCMsg where
  sender : Nat
  phase : String
  next_phase : String
  view : Nat
  round : Nat
  qc : QC
deriving Repr, DecidableEq

/-- A `type == "pre_prepare"` proposal message. -/
structure PrePrepareMsg where
  sender : Nat
  value : Int
  phase : String
  view : Nat
  round : Nat
  qc : Option QC
deriving Repr, DecidableEq

/-- A `type == "new_view"` message. -/
structure NewViewMsg where
  sender : Nat
  target : Nat
  view : Nat
  old_view : Nat
  round : Nat
  highQC : Option QC
deriving Repr, DecidableEq

/-- `session["robot_node_states"][robot_id]`. -/
structure RobotState where
  received_pre_prepare : Bool
  received_prepare_count : Nat
  received_commit_count : Nat
  sent_prepare : Bool
  sent_commit : Bool
deriving Repr, DecidableEq

/-- The robot vote-state installed on creation and on every reset. -/
def initRobotState : RobotState := ⟨false, 0, 0, false, false⟩

/-- One row pair plus optimization ratio of the four-algorithm comparison
table built by `finalize_consensus` (`speedup` is the source's
`optimization_ratio`, an exact rational here in place of a Python float). -/
structure ComplexityComparison where
  double_theoretical : Nat
  double_actual : Nat
  pbft_pure_theoretical : Nat
  pbft_pure_actual : Nat
  pbft_pure_speedup : ℚ
  hotstuff_pure_theoretical : Nat
  hotstuff_pure_actual : Nat
  hotstuff_pure_speedup : ℚ
  pbft_multi_theoretical : Nat
  pbft_multi_actual : Nat
  pbft_multi_speedup : ℚ
deriving Repr, DecidableEq

/-- `consensus_result["stats"]`. -/
structure Stats where
  expected_nodes : Nat
  expected_prepare_nodes : Nat
  total_messages : Nat
  complexity_comparison : ComplexityComparison
  actual_messages : Nat
  node_count : Nat
  branch_count : Nat
deriving Repr, DecidableEq

/-- `session["consensus_result"]`. -/
structure ConsensusResult where
  status : String
  description : String
  stats : Stats
deriving Repr, DecidableEq

/-- One `session["consensus_history"]` record (timestamp omitted). -/
structure HistoryItem where
  round : Nat
  view : Nat
  status : String
  description : String
  stats : Stats
deriving Repr, DecidableEq

/-- Association-list lookup, modelling Python `dict.get`. -/
def alookup {α β : Type} [DecidableEq α] : List (α × β) → α → Option β
  | [], _ => none
  | (k, v) :: rest, key => if key = k then some v else alookup rest key

/-- Lookup with default, modelling `dict.get(key, default)` / `setdefault`. -/
def alookupD {α β : Type} [DecidableEq α] (l : List (α × β)) (key : α) (d : β) : β :=
  (alookup l key).getD d

/-- In-place assignment `d[key] = v` (keys stay unique). -/
def aupdate {α β : Type} [DecidableEq α] : List (α × β) → α → β → List (α × β)
  | [], key, v => [(key, v)]
  | (k, w) :: rest, key, v =>
    if key = k then (key, v) :: rest else (k, w) :: aupdate rest key v

/-- `del d[key]`. -/
def aerase {α β : Type} [DecidableEq α] : List (α × β) → α → List (α × β)
  | [], _ => []
  | (k, w) :: rest, key => if key = k then aerase rest key else (k, w) :: aerase rest key

/-- Python `set.add`: duplicate-free list in first-insert order. -/
def add_unique (l : List Nat) (v : Nat) : List Nat := if v ∈ l then l else l ++ [v]

/-- Python `set.update(vs)`. -/
def union_add (acc : List Nat) (vs : List Nat) : List Nat := vs.foldl add_unique acc

/-- `all_voters = set(); for gv in group_votes: all_voters.update(gv["group_voters"])`
(the contributions recorded by the aggregator always carry `group_voters`). -/
def union_voters (contribs : List Contribution) : List Nat :=
  contribs.foldl (fun acc c => union_add acc c.group_voters) []

/-- The consensus-relevant session state (`create_session`'s dictionary);
sockets, timers and timestamps are omitted, `config` fields are inlined. -/
structure Session where
  nodeCount : Nat
  branchCount : Nat
  proposalValue : Int
  status : String
  phase : String
  phase_step : Nat
  current_view : Nat
  current_round : Nat
  start_view_of_round : Nat
  leader_id : Nat
  robot_nodes : List Nat
  robot_node_states : List (Nat × RobotState)
  node_states : List NodeState
  messages_pre_prepare : List PrePrepareMsg
  messages_prepare : List VoteMsg
  messages_commit : List VoteMsg
  messages_vote : List VoteMsg
  messages_qc : List QCMsg
  messages_new_view : List NewViewMsg
  pending_group_votes : List ((Nat × String × Int × Nat) × List Nat)
  pending_votes : List ((Nat × String × Int) × PendingEntry)
  pending_new_views : List (Nat × List (Nat × NewViewMsg))
  message_buffer : List (Nat × List VoteMsg)
  total_messages_sent : Nat
  consensus_finalized_view : Option Nat
  last_pre_prepare_view : Option Nat
  consensus_result : Option ConsensusResult
  consensus_history : List HistoryItem
deriving Repr, DecidableEq

/-- The group-leader start ids used by the hierarchical broadcast
(`for gid in range(branch_count): … if group_start_id < n and ≠ leader`).
The broadcast block reads `branchCount` without the `max 1` normalisation;
`branchCount = 0` raises `ZeroDivisionError` in Python and is outside the
modelled domain. -/
def group_leader_ids (n branch_count leader : Nat) : List Nat :=
  let group_size := max 1 (n / branch_count)
  ((List.range branch_count).map (fun gid => gid * group_size)).filter
    (fun gsid => decide (gsid < n ∧ gsid ≠ leader))

/-- Total `count_message_sent` increments of one hierarchical broadcast:
one unicast per group leader plus, per group, the member fan-out
`max(group_end - (group_start + 1), 0)`. -/
def hier_broadcast_count (n branch_count leader : Nat) : Nat :=
  let group_size := max 1 (n / branch_count)
  let gls := group_leader_ids n branch_count leader
  gls.foldl (fun acc gl =>
    let group_id := gl / group_size
    let group_start_id := group_id * group_size
    let group_end_id := min ((group_id + 1) * group_size) n
    acc + (group_end_id - (group_start_id + 1))) gls.length

/-- The comparison table computed inside `finalize_consensus`
(lines 1159–1233; identically in `ConsensusService.finalize_consensus_state`). -/
def complexity_comparison_of (n branch_count actual_messages : Nat) : ComplexityComparison :=
  let k := max 1 branch_count
  let group_size := n / k
  let shadow_pbft_actual := 2 * n * (n - 1)
  let shadow_hotstuff_actual := 8 * (n - 1)
  let shadow_multilayer_actual := 2 * k * (k - 1) + k * 2 * group_size * (group_size - 1)
  let hotstuff_double_actual := actual_messages
  let theoretical_double_hotstuff := 8 * n
  let theoretical_pbft := 2 * n * n
  let theoretical_hotstuff := 4 * n
  let theoretical_multilayer := 2 * k * k + 2 * n * n / k
  let optimization_vs_pbft_pure : ℚ :=
    if hotstuff_double_actual > 0 then (theoretical_pbft : ℚ) / hotstuff_double_actual else 0
  let optimization_vs_hotstuff_pure : ℚ :=
    if hotstuff_double_actual > 0 then (theoretical_hotstuff : ℚ) / hotstuff_double_actual else 0
  let optimization_vs_pbft_multi : ℚ :=
    if hotstuff_double_actual > 0 then (theoretical_multilayer : ℚ) / hotstuff_double_actual else 0
  ⟨theoretical_double_hotstuff, hotstuff_double_actual,
   theoretical_pbft, shadow_pbft_actual, optimization_vs_pbft_pure,
   theoretical_hotstuff, shadow_hotstuff_actual, optimization_vs_hotstuff_pure,
   theoretical_multilayer, shadow_multilayer_actual, optimization_vs_pbft_multi⟩

/-- `socket_handlers.finalize_consensus`: the `consensus_finalized_view`
guard, status/phase bump, comparison table, result and history append
(timer cancellation, socket emission and persistence are external effects). -/
def finalize_consensus (s : Session) (status description : String) : Session :=
  if s.consensus_finalized_view = some s.current_view then s
  else
    let s1 := { s with consensus_finalized_view := some s.current_view,
                       phase := "completed", phase_step := 4, status := "completed" }
    let cc := complexity_comparison_of s1.nodeCount s1.branchCount s1.total_messages_sent
    let stats : Stats := ⟨s1.nodeCount, s1.nodeCount - 1,
      s1.messages_prepare.length + s1.messages_commit.length, cc,
      s1.total_messages_sent, s1.nodeCount, s1.branchCount⟩
    let result : ConsensusResult := ⟨status, description, stats⟩
    let item : HistoryItem := ⟨s1.current_round, s1.current_view, status, description, stats⟩
    { s1 with consensus_result := some result,
              consensus_history := s1.consensus_history ++ [item] }

/-- The weight a Case B vote contributes: the carried `weight` for a
GroupVote, else 1 (lines 819–841). -/
def vote_weight (m : VoteMsg) : Nat := if m.is_group_vote then m.weight else 1

/-- The voter ids a Case B vote contributes: the carried `group_voters` for
a GroupVote, else the singleton sender (lines 819–841). -/
def vote_voter_ids (m : VoteMsg) : List Nat :=
  if m.is_group_vote then m.group_voters else [m.sender]

/-- Case B of `handle_vote` (`socket_handlers` lines 798–969, structurally
`ConsensusService._process_global_vote` plus the QC side effects): validate
the target, tally the weighted contribution, apply the phase-drift guard,
and on quorum build the QC, advance the phase, log and broadcast-count the
QC message, update every node's state, and finalize on `decide`.  Returns
the updated session and the QCs emitted by this call. -/
def process_global_vote (s : Session) (m : VoteMsg) (voter_role : String) : Session × List QC :=
  let global_leader_id := get_current_leader m.view s.nodeCount
  if voter_role = "group_leader" ∨ voter_role = "root" then
    if m.target ≠ global_leader_id then (s, [])
    else
      let key := (m.view, m.phase, m.value)
      let pend := alookupD s.pending_votes key ⟨0, []⟩
      let w := vote_weight m
      let voters := vote_voter_ids m
      let entry : PendingEntry :=
        ⟨pend.total_weight + w, pend.group_votes ++ [⟨m.sender, w, voters⟩]⟩
      let s1 := { s with pending_votes := aupdate s.pending_votes key entry }
      if m.phase ≠ s1.phase then (s1, [])
      else if entry.total_weight < get_quorum_threshold s1.nodeCount then (s1, [])
      else
        let signers := union_voters entry.group_votes
        let qc : QC := ⟨m.phase, m.view, m.value, signers, entry.total_weight⟩
        let next_phase := get_next_phase m.phase
        let s2 := { s1 with phase := next_phase, phase_step := s1.phase_step + 1 }
        let qc_message : QCMsg :=
          ⟨global_leader_id, m.phase, next_phase, m.view, s2.current_round, qc⟩
        let s3 := { s2 with messages_qc := s2.messages_qc ++ [qc_message] }
        let s4 := { s3 with total_messages_sent := s3.total_messages_sent
          + hier_broadcast_count s3.nodeCount s3.branchCount global_leader_id }
        let s5 := { s4 with node_states := s4.node_states.map (fun ns => handle_qc_message ns qc) }
        if next_phase = "decide" then
          (finalize_consensus s5 "Consensus Success"
            ("View " ++ toString m.view ++ " consensus reached"), [qc])
        else (s5, [qc])
  else (s, [])

/-- `socket_handlers.handle_vote`: view check (buffer future / drop stale),
role resolution, Case A member aggregation with GroupVote emission, Case B
global aggregation.  The source feeds an emitted GroupVote back through
`handle_vote` recursively; the GroupVote's sender is always its own group
start, whose role is `group_leader` or `root`, so the recursion runs exactly
the Case B body, inlined here as `process_global_vote` (exactly as the
repository's own `ConsensusService.handle_vote` flattens it). -/
def handle_vote (s : Session) (m : VoteMsg) : Session × List QC :=
  if s.current_view < m.view then
    ({ s with message_buffer :=
        aupdate s.message_buffer m.view (alookupD s.message_buffer m.view [] ++ [m]) }, [])
  else if m.view < s.current_view then (s, [])
  else
    let voter_info := get_topology_info m.view m.sender s.nodeCount s.branchCount
    if voter_info.role = "member" then
      match voter_info.parent_id, voter_info.group_size with
      | some group_leader_id, some group_size =>
        if m.target ≠ group_leader_id then (s, [])
        else
          let key := (m.view, m.phase, m.value, group_leader_id)
          let group_voters := add_unique (alookupD s.pending_group_votes key []) m.sender
          let s1 :=
            { s with pending_group_votes := aupdate s.pending_group_votes key group_voters }
          if group_voters.length < get_local_quorum_threshold group_size then (s1, [])
          else
            let global_leader_id := get_current_leader m.view s1.nodeCount
            let group_vote_message : VoteMsg :=
              ⟨group_leader_id, global_leader_id, m.value, m.phase, m.view, s1.current_round,
               true, group_voters.length, group_voters⟩
            let s2 := { s1 with messages_vote := s1.messages_vote ++ [group_vote_message] }
            process_global_vote s2 group_vote_message
              (get_topology_info m.view group_leader_id s2.nodeCount s2.branchCount).role
      | _, _ => (s, [])
    else process_global_vote s m voter_info.role

/-- Sequential processing of a list of inbound votes, collecting every QC
emitted along the way. -/
def run_votes (s : Session) (ms : List VoteMsg) : Session × List QC :=
  ms.foldl (fun acc m =>
    let r := handle_vote acc.1 m
    (r.1, acc.2 ++ r.2)) (s, [])

/-- `robot_node_states[robot_id]["received_pre_prepare"] = True` for every
robot except the proposer (lines 1833–1835). -/
def mark_received_pre_prepare (states : List (Nat × RobotState)) (robots : List Nat)
    (proposer : Nat) : List (Nat × RobotState) :=
  robots.foldl (fun acc rid =>
    if rid = proposer then acc
    else
      let st := alookupD acc rid initRobotState
      aupdate acc rid { st with received_pre_prepare := true }) states

/-- `socket_handlers.robot_send_pre_prepare`: the `last_pre_prepare_view`
de-dup guard, then — only when the proposer is a robot — the proposal
append, broadcast counting, phase entry and robot marking (socket emission,
the pacing sleep and the timeout task are external effects). -/
def robot_send_pre_prepare (s : Session) (highQC : Option QC) : Session :=
  if s.last_pre_prepare_view = some s.current_view then s
  else
    let s0 := { s with last_pre_prepare_view := some s.current_view }
    let proposer_id := get_current_leader s0.current_view s0.nodeCount
    if proposer_id ∉ s0.robot_nodes then s0
    else
      let proposal_value :=
        match highQC with
        | some q => q.value
        | none => s0.proposalValue
      let message : PrePrepareMsg :=
        ⟨proposer_id, proposal_value, "prepare", s0.current_view, s0.current_round, highQC⟩
      let s1 := { s0 with messages_pre_prepare := s0.messages_pre_prepare ++ [message] }
      let s2 := { s1 with total_messages_sent := s1.total_messages_sent
        + hier_broadcast_count s1.nodeCount s1.branchCount proposer_id }
      let s3 := { s2 with phase := "prepare", phase_step := 1 }
      { s3 with robot_node_states :=
          mark_received_pre_prepare s3.robot_node_states s3.robot_nodes proposer_id }

/-- The highest-view `highQC` among collected NEW-VIEW messages
(`max_view` starts at −1, so the first non-nil QC is always taken;
ties keep the earlier entry — the source's strict `>`). -/
def pick_high_qc (items : List (Nat × NewViewMsg)) : Option QC :=
  items.foldl (fun best p =>
    match p.2.highQC with
    | none => best
    | some q =>
      match best with
      | none => some q
      | some b => if q.view > b.view then some q else best) none

/-- `socket_handlers.start_new_view_consensus`: on ≥ 2f+1 collected NEW-VIEW
messages pick the highest `highQC` and, if the new leader is a robot, emit
the PRE-PREPARE. -/
def start_new_view_consensus (s : Session) (view : Nat) : Session :=
  let leader_id := get_current_leader view s.nodeCount
  let pending := alookupD s.pending_new_views view []
  let threshold := 2 * ((s.nodeCount - 1) / 3) + 1
  if pending.length < threshold then s
  else
    let highQC := pick_high_qc pending
    if leader_id ∈ s.robot_nodes then robot_send_pre_prepare s highQC
    else s

/-- `robot_node_states[robot_id] = {...fresh flags...}` for every robot
(lines 1433–1444 and, identically, per round in `start_next_round`). -/
def reset_robot_states (states : List (Nat × RobotState)) (robots : List Nat) :
    List (Nat × RobotState) :=
  robots.foldl (fun acc rid => aupdate acc rid initRobotState) states

/-- Lines 1447–1488: every node appends a NEW-VIEW message carrying its
`highQC`; every node except the new leader is recorded in
`pending_new_views[new_view]` and counted as one unicast. -/
def collect_new_view_messages (s : Session) (new_view old_view next_leader : Nat) : Session :=
  (List.range s.nodeCount).foldl (fun acc node_id =>
    let highQC :=
      match acc.node_states.get? node_id with
      | some ns => ns.highQC
      | none => none
    let msg : NewViewMsg := ⟨node_id, next_leader, new_view, old_view, acc.current_round, highQC⟩
    let acc1 := { acc with messages_new_view := acc.messages_new_view ++ [msg] }
    if node_id = next_leader then acc1
    else
      let pnv := alookupD acc1.pending_new_views new_view []
      let pnv2 := aupdate pnv node_id msg
      let acc2 := { acc1 with pending_new_views := aupdate acc1.pending_new_views new_view pnv2 }
      { acc2 with total_messages_sent := acc2.total_messages_sent + 1 }) s

/-- `socket_handlers.trigger_view_change` up to (excluding) the
message-buffer drain: bump the view and leader, reset the robots' vote
state, collect NEW-VIEW messages, and run `start_new_view_consensus`. -/
def view_change_core (s : Session) (old_view : Nat) : Session :=
  let new_view := old_view + 1
  let next_leader_id := get_current_leader new_view s.nodeCount
  let s1 := { s with current_view := new_view, leader_id := next_leader_id }
  let s2 := { s1 with robot_node_states := reset_robot_states s1.robot_node_states s1.robot_nodes }
  let s3 := collect_new_view_messages s2 new_view old_view next_leader_id
  start_new_view_consensus s3 new_view

/-- `socket_handlers.trigger_view_change` (lines 1408–1510): the core steps,
then the buffered votes for the new view are replayed through `handle_vote`
and the buffer entry is deleted. -/
def trigger_view_change (s : Session) (old_view : Nat) : Session × List QC :=
  let new_view := old_view + 1
  let s1 := view_change_core s old_view
  match alookup s1.message_buffer new_view with
  | none => (s1, [])
  | some buffered_votes =>
    let r := run_votes s1 buffered_votes
    ({ r.1 with message_buffer := aerase r.1.message_buffer new_view }, r.2)

/-- The comparison table transcribed from the spec's formulas
(§4.11 of the spec): N = nodeCount, K = max(1, branchCount), g = N div K,
theoretical `8N, 2N², 4N, 2K²+2N²/K` (integer division), shadow actuals
`actualDouble, 2N(N−1), 8(N−1), 2K(K−1)+K·2g(g−1)`, and ratios
`theoretical_other / actualDouble` with 0 when `actualDouble = 0`. -/
def complexity_comparison_spec (n branch_count actual : Nat) : ComplexityComparison :=
  let K := max 1 branch_count
  let g := n / K
  let ratio := fun (th : Nat) => if actual = 0 then (0 : ℚ) else (th : ℚ) / (actual : ℚ)
  ⟨8 * n, actual,
   2 * n ^ 2, 2 * n * (n - 1), ratio (2 * n ^ 2),
   4 * n, 8 * (n - 1), ratio (4 * n),
   2 * K ^ 2 + 2 * n ^ 2 / K, 2 * K * (K - 1) + K * (2 * g * (g - 1)),
   ratio (2 * K ^ 2 + 2 * n ^ 2 / K)⟩

/-- The key under which the aggregator pools and emits: `(view, phase, value)`. -/
def qc_key (q : QC) : Nat × String × Int := (q.view, q.phase, q.value)

/-- Number of emitted QCs for a given `(view, phase, value)` key. -/
def count_key (l : List QC) (k : Nat × String × Int) : Nat :=
  (l.filter (fun q => decide (qc_key q = k))).length

/-- Position of a phase string in the succession chain
`prepare → pre-commit → commit → decide → completed` (0 for anything else). -/
def phase_rank (p : String) : Nat :=
  if p = "prepare" then 1
  else if p = "pre-commit" then 2
  else if p = "commit" then 3
  else if p = "decide" then 4
  else if p = "completed" then 5
  else 0

/-- Current tallied weight for a global key (0 when the pool has no entry). -/
def pending_total (s : Session) (key : Nat × String × Int) : Nat :=
  (alookupD s.pending_votes key ⟨0, []⟩).total_weight

/-- Recorded contributions for a global key. -/
def pending_contribs (s : Session) (key : Nat × String × Int) : List Contribution :=
  (alookupD s.pending_votes key ⟨0, []⟩).group_votes

/-- Test fixture: the session `create_session` builds for `nodeCount = n`,
`branchCount = k`, `proposalValue = 100`, all nodes human, after the leader's
PRE-PREPARE has entered the prepare phase of view 0. -/
def baseSession (n k : Nat) : Session :=
  ⟨n, k, 100, "running", "prepare", 1, 0, 1, 0, 0, [], [],
   List.replicate n initNodeState, [], [], [], [], [], [], [], [], [], [], 0,
   none, none, none, []⟩

/-- Test fixture: a plain (non-group) vote for value 100 in view 0. -/
def plainVote (sender target : Nat) (phase : String) : VoteMsg :=
  ⟨sender, target, 100, phase, 0, 1, false, 1, []⟩

/-- C2 counterexample trace (N = 1, so node 0 is root and the quorum is 1):
walking the phase chain to `completed` and then voting with phase
`"completed"` sends `get_next_phase` through its default back to
`"prepare"`, after which a fifth vote re-emits a QC for the key
`(0, "prepare", 100)` that already produced one. -/
def doublePhaseTrace : List VoteMsg :=
  [plainVote 0 0 "prepare", plainVote 0 0 "pre-commit", plainVote 0 0 "commit",
   plainVote 0 0 "completed", plainVote 0 0 "prepare"]

/-- C3/C4 counterexample trace (N = 7, K = 2, groups {0,1,2}, {3,4,5}, {6},
local quorum of a 3-node group is 1): members 1, 2 vote to group leader 0
and members 4, 5 to group leader 3. -/
def memberQuorumTrace : List VoteMsg :=
  [plainVote 1 0 "prepare", plainVote 2 0 "prepare",
   plainVote 4 3 "prepare", plainVote 5 3 "prepare"]

/-- The first two member votes of `memberQuorumTrace`. -/
def twoMemberVotes : List VoteMsg := [plainVote 1 0 "prepare", plainVote 2 0 "prepare"]

/-- The intra-group pool key `(view, phase, value, groupLeaderId)`. -/
def member_key (m : VoteMsg) (gl : Nat) : Nat × String × Int × Nat :=
  (m.view, m.phase, m.value, gl)

/-- The intra-group voter set after recording `m.sender`. -/
def member_pool_after (s : Session) (m : VoteMsg) (gl : Nat) : List Nat :=
  add_unique (alookupD s.pending_group_votes (member_key m gl) []) m.sender

/-- The GroupVote message Case A builds at local quorum
(`{from: groupLeader, to: globalLeader, is_group_vote: true,
weight: |set|, group_voters: list(set)}`). -/
def group_vote_of (s : Session) (m : VoteMsg) (gl : Nat) : VoteMsg :=
  ⟨gl, get_current_leader m.view s.nodeCount, m.value, m.phase, m.view, s.current_round,
   true, (member_pool_after s m gl).length, member_pool_after s m gl⟩

/-- `update_node_prepare_qc` never touches `lockedQC`. -/
theorem update_node_prepare_qc_lockedQC (ns : NodeState) (qc : QC) :
    (update_node_prepare_qc ns qc).lockedQC = ns.lockedQC := by
  unfold update_node_prepare_qc
  cases h : ns.prepareQC <;> simp
  split <;> rfl

/-- C1: `check_safe_node` follows the spec decision order, `qc_extends` is the
stated predicate, and a locked node refuses every stale conflicting proposal. -/
theorem check_safe_node_decision_order :
    (∀ pv pval pqc, check_safe_node none pv pval pqc = true) ∧
    (∀ locked pv pval pqc, pv > locked.view →
      check_safe_node (some locked) pv pval pqc = true) ∧
    (∀ locked pv pval q, pv ≤ locked.view →
      check_safe_node (some locked) pv pval (some q) = qc_extends (some q) (some locked)) ∧
    (∀ locked pv pval, pv ≤ locked.view →
      check_safe_node (some locked) pv pval none
        = (pval == locked.value && pv ≥ locked.view)) ∧
    (∀ a b, qc_extends a b = true ↔
      (b = none ∨ ∃ qa qb, a = some qa ∧ b = some qb ∧ qa.view > qb.view ∧ qa.value = qb.value)) ∧
    (∀ locked pv pval pqc, pv ≤ locked.view → pval ≠ locked.value →
      qc_extends pqc (some locked) = false →
      check_safe_node (some locked) pv pval pqc = false) := by
  refine ⟨fun _ _ _ => rfl, ?_, ?_, ?_, ?_, ?_⟩
  · intro locked pv pval pqc h
    simp [check_safe_node, h]
  · intro locked pv pval q h
    simp [check_safe_node, Nat.not_lt.mpr h]
  · intro locked pv pval h
    simp [check_safe_node, Nat.not_lt.mpr h]
  · intro a b
    cases b with
    | none => simp [qc_extends]
    | some qb =>
      cases a with
      | none => simp [qc_extends]
      | some qa => simp [qc_extends]
  · intro locked pv pval pqc hle hne hext
    cases pqc with
    | none =>
      simp [check_safe_node, Nat.not_lt.mpr hle, hne]
    | some q =>
      simp [check_safe_node, Nat.not_lt.mpr hle, hext]

/-- Witness for C1 at scenario S3 of the spec: lockedQC at view 5 value 7
rejects the conflicting proposal `(view 4, value 9, qc nil)`. -/
theorem check_safe_node_decision_order_witness :
    check_safe_node (some ⟨"commit", 5, 7, [], 3⟩) 4 9 none = false :=
  check_safe_node_decision_order.2.2.2.2.2 ⟨"commit", 5, 7, [], 3⟩ 4 9 none
    (by decide) (by decide) (by decide)

/-- C5: `lockedQC` never regresses.  `update_node_locked_qc` assigns exactly
when nil or strictly newer; `handle_qc_message` routes only commit-phase QCs
into it; folding any sequence of QCs over a node keeps `lockedQC.view`
non-decreasing. -/
theorem locked_qc_monotone :
    (∀ qc, update_node_locked_qc none qc = some qc) ∧
    (∀ cur qc, cur.view < qc.view → update_node_locked_qc (some cur) qc = some qc) ∧
    (∀ cur qc, qc.view ≤ cur.view → update_node_locked_qc (some cur) qc = some cur) ∧
    (∀ ns qc, qc.phase ≠ "commit" → (handle_qc_message ns qc).lockedQC = ns.lockedQC) ∧
    (∀ ns qc, qc.phase = "commit" →
      (handle_qc_message ns qc).lockedQC = update_node_locked_qc ns.lockedQC qc) ∧
    (∀ (qcs : List QC) (ns : NodeState) (cur : QC), ns.lockedQC = some cur →
      ∃ cur', (qcs.foldl handle_qc_message ns).lockedQC = some cur' ∧ cur.view ≤ cur'.view) := by
  have hul : ∀ (qc cur : QC),
      ∃ cur', update_node_locked_qc (some cur) qc = some cur' ∧ cur.view ≤ cur'.view := by
    intro qc cur
    unfold update_node_locked_qc
    by_cases hv : qc.view > cur.view
    · exact ⟨qc, by simp [hv], Nat.le_of_lt hv⟩
    · exact ⟨cur, by simp [hv], Nat.le_refl _⟩
  have hstep : ∀ ns qc cur, ns.lockedQC = some cur →
      ∃ cur', (handle_qc_message ns qc).lockedQC = some cur' ∧ cur.view ≤ cur'.view := by
    intro ns qc cur h
    unfold handle_qc_message
    by_cases hc : qc.phase = "commit"
    · rw [if_pos hc]
      simp only [update_node_prepare_qc_lockedQC, h]
      exact hul qc cur
    · rw [if_neg hc, update_node_prepare_qc_lockedQC, h]
      exact ⟨cur, rfl, Nat.le_refl _⟩
  refine ⟨fun _ => rfl, ?_, ?_, ?_, ?_, ?_⟩
  · intro cur qc h
    simp [update_node_locked_qc, h]
  · intro cur qc h
    simp [update_node_locked_qc, Nat.not_lt.mpr h]
  · intro ns qc h
    unfold handle_qc_message
    rw [if_neg h, update_node_prepare_qc_lockedQC]
  · intro ns qc h
    unfold handle_qc_message
    rw [if_pos h]
    simp only [update_node_prepare_qc_lockedQC]
  · intro qcs
    induction qcs with
    | nil => intro ns cur h; exact ⟨cur, by simpa using h, le_refl _⟩
    | cons q qs ih =>
      intro ns cur h
      obtain ⟨c1, hc1, hle1⟩ := hstep ns q cur h
      obtain ⟨c2, hc2, hle2⟩ := ih (handle_qc_message ns q) c1 hc1
      exact ⟨c2, by simpa using hc2, le_trans hle1 hle2⟩

/-- Witness for C5: a node locked at view 3 ignores an older commit QC and
advances on a newer one; the fold over both ends at view 7 ≥ 3. -/
theorem locked_qc_monotone_witness :
    (handle_qc_message ⟨some ⟨"commit", 3, 5, [0], 3⟩, none, none⟩
        ⟨"commit", 2, 5, [0], 3⟩).lockedQC = some ⟨"commit", 3, 5, [0], 3⟩ ∧
    ∃ cur', (([⟨"commit", 2, 5, [0], 3⟩, ⟨"commit", 7, 5, [0], 3⟩] :
        List QC).foldl handle_qc_message
        ⟨some ⟨"commit", 3, 5, [0], 3⟩, none, none⟩).lockedQC = some cur' ∧ 3 ≤ cur'.view := by
  constructor
  · have := locked_qc_monotone.2.2.2.2.1 ⟨some ⟨"commit", 3, 5, [0], 3⟩, none, none⟩
      ⟨"commit", 2, 5, [0], 3⟩ (by decide)
    rw [this]
    decide
  · exact locked_qc_monotone.2.2.2.2.2 [⟨"commit", 2, 5, [0], 3⟩, ⟨"commit", 7, 5, [0], 3⟩]
      ⟨some ⟨"commit", 3, 5, [0], 3⟩, none, none⟩ ⟨"commit", 3, 5, [0], 3⟩ rfl

/-- C7: the topology resolver is the pure function described by the spec:
leader `view % N`, group size `max 1 (N / K)`, role/parent/size case split,
and identical outputs for identical inputs. -/
theorem get_topology_info_spec (view node_id n k : Nat) (_hn : 1 ≤ n) (hk : 1 ≤ k) :
    (node_id = view % n →
      get_topology_info view node_id n k = ⟨"root", none, none, none⟩) ∧
    (node_id ≠ view % n → node_id = (node_id / max 1 (n / k)) * max 1 (n / k) →
      get_topology_info view node_id n k =
        ⟨"group_leader", some (view % n), some (node_id / max 1 (n / k)),
          some (min ((node_id / max 1 (n / k) + 1) * max 1 (n / k)) n
            - (node_id / max 1 (n / k)) * max 1 (n / k))⟩) ∧
    (node_id ≠ view % n → node_id ≠ (node_id / max 1 (n / k)) * max 1 (n / k) →
      get_topology_info view node_id n k =
        ⟨"member", some ((node_id / max 1 (n / k)) * max 1 (n / k)),
          some (node_id / max 1 (n / k)),
          some (min ((node_id / max 1 (n / k) + 1) * max 1 (n / k)) n
            - (node_id / max 1 (n / k)) * max 1 (n / k))⟩) ∧
    get_topology_info view node_id n k = get_topology_info view node_id n k := by
  have hmax : max 1 k = k := Nat.max_eq_right hk
  refine ⟨?_, ?_, ?_, rfl⟩
  · intro h
    simp [get_topology_info, h]
  · intro h1 h2
    simp only [get_topology_info, hmax]
    rw [if_neg h1, if_pos h2]
  · intro h1 h2
    simp only [get_topology_info, hmax]
    rw [if_neg h1, if_neg h2]

/-- Witness for C7 with N=7, K=2, view 0: node 0 is root, node 3 a group
leader with parent 0, node 4 a member with parent 3 and group size 3. -/
theorem get_topology_info_spec_witness :
    get_topology_info 0 0 7 2 = ⟨"root", none, none, none⟩ ∧
    get_topology_info 0 3 7 2 = ⟨"group_leader", some 0, some 1, some 3⟩ ∧
    get_topology_info 0 4 7 2 = ⟨"member", some 3, some 1, some 3⟩ := by
  refine ⟨(get_topology_info_spec 0 0 7 2 (by decide) (by decide)).1 (by decide), ?_, ?_⟩
  · have := (get_topology_info_spec 0 3 7 2 (by decide) (by decide)).2.1
      (by decide) (by decide)
    rw [this]
    decide
  · have := (get_topology_info_spec 0 4 7 2 (by decide) (by decide)).2.2.1
      (by decide) (by decide)
    rw [this]
    decide

theorem alookup_aupdate_self {α β : Type} [DecidableEq α] (l : List (α × β)) (k : α) (v : β) :
    alookup (aupdate l k v) k = some v := by
  induction l with
  | nil => simp [aupdate, alookup]
  | cons p rest ih =>
    obtain ⟨k1, v1⟩ := p
    by_cases h : k = k1
    · simp [aupdate, alookup, h]
    · simp [aupdate, alookup, h, ih]

theorem alookup_aerase_self {α β : Type} [DecidableEq α] (l : List (α × β)) (k : α) :
    alookup (aerase l k) k = none := by
  induction l with
  | nil => rfl
  | cons p rest ih =>
    obtain ⟨k1, v1⟩ := p
    by_cases h : k = k1
    · simpa [aerase, h] using ih
    · simp [aerase, alookup, h, ih]

theorem add_unique_nodup (l : List Nat) (v : Nat) (h : l.Nodup) : (add_unique l v).Nodup := by
  unfold add_unique
  by_cases hv : v ∈ l
  · simpa [hv]
  · rw [if_neg hv]
    refine List.nodup_append.mpr ⟨h, List.nodup_singleton v, ?_⟩
    intro a ha hb
    simp only [List.mem_singleton] at hb
    subst hb
    exact hv ha

theorem union_add_nodup (vs : List Nat) : ∀ acc : List Nat, acc.Nodup → (union_add acc vs).Nodup := by
  induction vs with
  | nil => intro acc h; exact h
  | cons v rest ih =>
    intro acc h
    exact ih (add_unique acc v) (add_unique_nodup acc v h)

theorem union_voters_nodup (contribs : List Contribution) : (union_voters contribs).Nodup := by
  suffices h : ∀ acc : List Nat, acc.Nodup →
      (contribs.foldl (fun acc c => union_add acc c.group_voters) acc).Nodup by
    exact h [] List.nodup_nil
  induction contribs with
  | nil => intro acc h; exact h
  | cons c rest ih =>
    intro acc h
    exact ih (union_add acc c.group_voters) (union_add_nodup c.group_voters acc h)

/-- `finalize_consensus` keeps the view, node count, pending pools and vote
log; it only rewrites status/phase/result/history fields. -/
theorem finalize_consensus_fields (s : Session) (st d : String) :
    (finalize_consensus s st d).current_view = s.current_view ∧
    (finalize_consensus s st d).nodeCount = s.nodeCount ∧
    ((finalize_consensus s st d).phase = "completed" ∨ (finalize_consensus s st d).phase = s.phase) := by
  unfold finalize_consensus
  by_cases h : s.consensus_finalized_view = some s.current_view
  · rw [if_pos h]
    exact ⟨rfl, rfl, Or.inr rfl⟩
  · rw [if_neg h]
    exact ⟨rfl, rfl, Or.inl rfl⟩

/-- Case split on `process_global_vote`: either no QC is emitted and the
session phase is untouched, or exactly one QC is emitted, carrying the
vote's phase (which then necessarily matched the session phase), the vote's
view, a tallied weight at quorum, and duplicate-free signers, after which
the session phase is the successor phase (or `"completed"` via
finalization). -/
theorem process_global_vote_spec (s : Session) (m : VoteMsg) (role : String) :
    ((process_global_vote s m role).2 = [] ∧
      (process_global_vote s m role).1.phase = s.phase ∧
      (process_global_vote s m role).1.current_view = s.current_view ∧
      (process_global_vote s m role).1.nodeCount = s.nodeCount) ∨
    (∃ q, (process_global_vote s m role).2 = [q] ∧ q.phase = m.phase ∧ m.phase = s.phase ∧
      q.view = m.view ∧ get_quorum_threshold s.nodeCount ≤ q.total_weight ∧
      q.signers.Nodup ∧
      ((process_global_vote s m role).1.phase = get_next_phase m.phase ∨
        (process_global_vote s m role).1.phase = "completed") ∧
      (process_global_vote s m role).1.current_view = s.current_view ∧
      (process_global_vote s m role).1.nodeCount = s.nodeCount) := by
  rcases hpv : process_global_vote s m role with ⟨s', qs⟩
  simp only [hpv]
  unfold process_global_vote at hpv
  dsimp only at hpv
  split at hpv
  case isFalse =>
    injection hpv with h1 h2
    subst h1; subst h2
    exact Or.inl ⟨rfl, rfl, rfl, rfl⟩
  case isTrue hrole =>
    split at hpv
    case isTrue =>
      injection hpv with h1 h2
      subst h1; subst h2
      exact Or.inl ⟨rfl, rfl, rfl, rfl⟩
    case isFalse htgt =>
      split at hpv
      case isTrue hph =>
        injection hpv with h1 h2
        subst h1; subst h2
        exact Or.inl ⟨rfl, rfl, rfl, rfl⟩
      case isFalse hph =>
        have hph' : m.phase = s.phase := not_not.mp hph
        split at hpv
        case isTrue hth =>
          injection hpv with h1 h2
          subst h1; subst h2
          exact Or.inl ⟨rfl, rfl, rfl, rfl⟩
        case isFalse hth =>
          have hth' := Nat.not_lt.mp hth
          split at hpv
          case isTrue hnext =>
            injection hpv with h1 h2
            subst h1; subst h2
            refine Or.inr ⟨_, rfl, rfl, hph', rfl, hth', union_voters_nodup _, ?_, ?_, ?_⟩
            · rcases (finalize_consensus_fields _ _ _).2.2 with h | h
              · exact Or.inr h
              · rw [h, hnext]
                exact Or.inl rfl
            · exact (finalize_consensus_fields _ _ _).1
            · exact (finalize_consensus_fields _ _ _).2.1
          case isFalse hnext =>
            injection hpv with h1 h2
            subst h1; subst h2
            exact Or.inr ⟨_, rfl, rfl, hph', rfl, hth', union_voters_nodup _,
              Or.inl rfl, rfl, rfl⟩

/-- `process_global_vote_spec` in equation form. -/
theorem pgv_spec_pair {s : Session} {m : VoteMsg} {role : String} {s' : Session} {qs : List QC}
    (h : process_global_vote s m role = (s', qs)) :
    (qs = [] ∧ s'.phase = s.phase ∧ s'.current_view = s.current_view ∧
      s'.nodeCount = s.nodeCount) ∨
    (∃ q, qs = [q] ∧ q.phase = m.phase ∧ m.phase = s.phase ∧ q.view = m.view ∧
      get_quorum_threshold s.nodeCount ≤ q.total_weight ∧ q.signers.Nodup ∧
      (s'.phase = get_next_phase m.phase ∨ s'.phase = "completed") ∧
      s'.current_view = s.current_view ∧ s'.nodeCount = s.nodeCount) := by
  have hspec := process_global_vote_spec s m role
  rw [h] at hspec
  exact hspec

/-- Case split on one `handle_vote` call: either no QC is emitted and the
session phase is untouched, or exactly one QC for the current view is
emitted, its phase being the vote's phase, which matched the session phase;
the session phase then moves to the successor (or `"completed"`). -/
theorem handle_vote_spec (s : Session) (m : VoteMsg) :
    ((handle_vote s m).2 = [] ∧ (handle_vote s m).1.phase = s.phase ∧
      (handle_vote s m).1.current_view = s.current_view ∧
      (handle_vote s m).1.nodeCount = s.nodeCount) ∨
    (∃ q, (handle_vote s m).2 = [q] ∧ q.phase = m.phase ∧ m.phase = s.phase ∧
      q.view = s.current_view ∧ get_quorum_threshold s.nodeCount ≤ q.total_weight ∧
      q.signers.Nodup ∧
      ((handle_vote s m).1.phase = get_next_phase m.phase ∨
        (handle_vote s m).1.phase = "completed") ∧
      (handle_vote s m).1.current_view = s.current_view ∧
      (handle_vote s m).1.nodeCount = s.nodeCount) := by
  rcases hhv : handle_vote s m with ⟨s', qs⟩
  simp only [hhv]
  unfold handle_vote at hhv
  dsimp only at hhv
  split at hhv
  case isTrue hv =>
    injection hhv with h1 h2
    subst h1; subst h2
    exact Or.inl ⟨rfl, rfl, rfl, rfl⟩
  case isFalse hv1 =>
    split at hhv
    case isTrue hv2 =>
      injection hhv with h1 h2
      subst h1; subst h2
      exact Or.inl ⟨rfl, rfl, rfl, rfl⟩
    case isFalse hv2 =>
      have hveq : m.view = s.current_view := by omega
      split at hhv
      case isTrue hmem =>
        split at hhv
        case h_1 gl gsize hpar hsz =>
          split at hhv
          case isTrue htgt =>
            injection hhv with h1 h2
            subst h1; subst h2
            exact Or.inl ⟨rfl, rfl, rfl, rfl⟩
          case isFalse htgt =>
            split at hhv
            case isTrue hth =>
              injection hhv with h1 h2
              subst h1; subst h2
              exact Or.inl ⟨rfl, rfl, rfl, rfl⟩
            case isFalse hth =>
              rcases pgv_spec_pair hhv with ⟨h1, h2, h3, h4⟩ | ⟨q, h1, h2, h3, h4, h5, h6, h7, h8, h9⟩
              · exact Or.inl ⟨h1, h2, h3, h4⟩
              · exact Or.inr ⟨q, h1, h2, h3, hveq ▸ h4, h5, h6, h7, h8, h9⟩
        case h_2 =>
          injection hhv with h1 h2
          subst h1; subst h2
          exact Or.inl ⟨rfl, rfl, rfl, rfl⟩
      case isFalse hmem =>
        rcases pgv_spec_pair hhv with ⟨h1, h2, h3, h4⟩ | ⟨q, h1, h2, h3, h4, h5, h6, h7, h8, h9⟩
        · exact Or.inl ⟨h1, h2, h3, h4⟩
        · exact Or.inr ⟨q, h1, h2, h3, hveq ▸ h4, h5, h6, h7, h8, h9⟩

/-- Advancing from a vote-carrying phase strictly increases the rank, also
when finalization jumps the phase to `"completed"`. -/
theorem phase_rank_advances (p : String)
    (hp : p = "prepare" ∨ p = "pre-commit" ∨ p = "commit") :
    phase_rank p < phase_rank (get_next_phase p) ∧ phase_rank p < phase_rank "completed" := by
  rcases hp with h | h | h <;> subst h <;> exact ⟨by decide, by decide⟩

theorem count_key_append (l1 l2 : List QC) (k : Nat × String × Int) :
    count_key (l1 ++ l2) k = count_key l1 k + count_key l2 k := by
  simp [count_key, List.filter_append]

/-- Invariant induction over a vote trace: every QC accumulated so far has a
phase of strictly lower rank than the session's current phase, and no key
occurs twice. -/
theorem run_votes_aux_at_most_one (ms : List VoteMsg) :
    ∀ (s : Session) (acc : List QC),
    (∀ m ∈ ms, m.phase = "prepare" ∨ m.phase = "pre-commit" ∨ m.phase = "commit") →
    (∀ q ∈ acc, phase_rank q.phase < phase_rank s.phase) →
    (∀ k, count_key acc k ≤ 1) →
    ∀ k, count_key (ms.foldl (fun acc m =>
      let r := handle_vote acc.1 m
      (r.1, acc.2 ++ r.2)) (s, acc)).2 k ≤ 1 := by
  induction ms with
  | nil => intro s acc _ _ hcount k; exact hcount k
  | cons m rest ih =>
    intro s acc hph hrank hcount k
    simp only [List.foldl_cons]
    rcases handle_vote_spec s m with ⟨h1, h2, h3, h4⟩ |
      ⟨q, h1, h2, h3, h4, h5, h6, h7, h8, h9⟩
    · refine ih (handle_vote s m).1 (acc ++ (handle_vote s m).2)
        (fun x hx => hph x (List.mem_cons_of_mem m hx)) ?_ ?_ k
      · intro q hq
        rw [h1, List.append_nil] at hq
        rw [h2]
        exact hrank q hq
      · intro k'
        rw [h1, List.append_nil]
        exact hcount k'
    · have hmp := hph m (List.mem_cons_self m rest)
      have hadv := phase_rank_advances m.phase hmp
      have hnew_rank : phase_rank s.phase < phase_rank (handle_vote s m).1.phase := by
        rcases h7 with h7 | h7
        · rw [h7, ← h3]; exact hadv.1
        · rw [h7, ← h3]; exact hadv.2
      refine ih (handle_vote s m).1 (acc ++ (handle_vote s m).2)
        (fun x hx => hph x (List.mem_cons_of_mem m hx)) ?_ ?_ k
      · intro q' hq'
        rw [h1] at hq'
        rcases List.mem_append.mp hq' with hq' | hq'
        · exact lt_trans (hrank q' hq') hnew_rank
        · simp only [List.mem_singleton] at hq'
          subst hq'
          rw [h2, h3]
          exact hnew_rank
      · intro k'
        rw [h1, count_key_append]
        by_cases hk : qc_key q = k'
        · have hzero : count_key acc k' = 0 := by
            rw [count_key, List.length_eq_zero, List.filter_eq_nil_iff]
            intro q' hq'
            simp only [decide_eq_true_eq]
            intro hkey
            have hq'phase : q'.phase = q.phase := by
              have hkk : qc_key q' = qc_key q := by rw [hkey, hk]
              simp only [qc_key, Prod.mk.injEq] at hkk
              exact hkk.2.1
            have := hrank q' hq'
            rw [hq'phase, h2, h3] at this
            exact lt_irrefl _ this
          rw [hzero]
          have : count_key [q] k' ≤ 1 := by
            simp [count_key, List.filter]
            split <;> simp
          omega
        · have : count_key [q] k' = 0 := by
            simp [count_key, List.filter_eq_nil_iff, hk]
          rw [this]
          have := hcount k'
          omega

/-- Trace induction for QC well-formedness: every emitted QC keeps
duplicate-free signers and a tallied weight at the global quorum. -/
theorem run_votes_aux_qc_props (ms : List VoteMsg) :
    ∀ (s : Session) (acc : List QC),
    (∀ q ∈ acc, q.signers.Nodup ∧ get_quorum_threshold s.nodeCount ≤ q.total_weight) →
    ∀ q ∈ (ms.foldl (fun acc m =>
      let r := handle_vote acc.1 m
      (r.1, acc.2 ++ r.2)) (s, acc)).2,
      q.signers.Nodup ∧ get_quorum_threshold s.nodeCount ≤ q.total_weight := by
  induction ms with
  | nil => intro s acc hacc q hq; exact hacc q hq
  | cons m rest ih =>
    intro s acc hacc
    simp only [List.foldl_cons]
    rcases handle_vote_spec s m with ⟨h1, h2, h3, h4⟩ |
      ⟨q0, h1, h2, h3, h4, h5, h6, h7, h8, h9⟩
    · intro q hq
      have := ih (handle_vote s m).1 (acc ++ (handle_vote s m).2)
        (by
          intro q' hq'
          rw [h1, List.append_nil] at hq'
          rw [h4]
          exact hacc q' hq') q hq
      rw [h4] at this
      exact this
    · intro q hq
      have := ih (handle_vote s m).1 (acc ++ (handle_vote s m).2)
        (by
          intro q' hq'
          rw [h1] at hq'
          rw [h9]
          rcases List.mem_append.mp hq' with hq' | hq'
          · exact hacc q' hq'
          · simp only [List.mem_singleton] at hq'
            subst hq'
            exact ⟨h6, h5⟩) q hq
      rw [h9] at this
      exact this

/-- `finalize_consensus` never touches the vote log. -/
theorem finalize_consensus_messages_vote (s : Session) (st d : String) :
    (finalize_consensus s st d).messages_vote = s.messages_vote := by
  unfold finalize_consensus
  split <;> rfl

/-- `process_global_vote` never touches the vote log (it appends only to the
QC log). -/
theorem pgv_messages_vote (s : Session) (m : VoteMsg) (role : String) :
    (process_global_vote s m role).1.messages_vote = s.messages_vote := by
  rcases hpv : process_global_vote s m role with ⟨s', qs⟩
  simp only [hpv]
  unfold process_global_vote at hpv
  dsimp only at hpv
  split at hpv
  case isFalse =>
    injection hpv with h1 h2
    subst h1; rfl
  case isTrue =>
    split at hpv
    case isTrue =>
      injection hpv with h1 h2
      subst h1; rfl
    case isFalse =>
      split at hpv
      case isTrue =>
        injection hpv with h1 h2
        subst h1; rfl
      case isFalse =>
        split at hpv
        case isTrue =>
          injection hpv with h1 h2
          subst h1; rfl
        case isFalse =>
          split at hpv
          case isTrue =>
            injection hpv with h1 h2
            subst h1
            rw [finalize_consensus_messages_vote]
          case isFalse =>
            injection hpv with h1 h2
            subst h1; rfl

/-- `robot_send_pre_prepare` touches neither the message buffer nor the
current view. -/
theorem robot_send_pre_prepare_fields (s : Session) (hq : Option QC) :
    (robot_send_pre_prepare s hq).message_buffer = s.message_buffer ∧
    (robot_send_pre_prepare s hq).current_view = s.current_view := by
  unfold robot_send_pre_prepare
  dsimp only
  split
  · exact ⟨rfl, rfl⟩
  · split
    · exact ⟨rfl, rfl⟩
    · exact ⟨rfl, rfl⟩

/-- `start_new_view_consensus` touches neither the message buffer nor the
current view. -/
theorem start_new_view_consensus_fields (s : Session) (view : Nat) :
    (start_new_view_consensus s view).message_buffer = s.message_buffer ∧
    (start_new_view_consensus s view).current_view = s.current_view := by
  unfold start_new_view_consensus
  dsimp only
  split
  · exact ⟨rfl, rfl⟩
  · split
    · exact robot_send_pre_prepare_fields s _
    · exact ⟨rfl, rfl⟩

/-- `collect_new_view_messages` touches neither the message buffer nor the
current view. -/
theorem collect_new_view_messages_fields (s : Session) (nv ov nl : Nat) :
    (collect_new_view_messages s nv ov nl).message_buffer = s.message_buffer ∧
    (collect_new_view_messages s nv ov nl).current_view = s.current_view := by
  unfold collect_new_view_messages
  generalize List.range s.nodeCount = l
  induction l generalizing s with
  | nil => exact ⟨rfl, rfl⟩
  | cons x xs ih =>
    simp only [List.foldl_cons]
    rcases ih (if x = nl
      then { s with messages_new_view := s.messages_new_view
              ++ [⟨x, nl, nv, ov, s.current_round,
                   match s.node_states.get? x with
                   | some ns => ns.highQC
                   | none => none⟩] }
      else _) with ⟨h1, h2⟩
    constructor
    · refine h1.trans ?_
      by_cases hx : x = nl <;> simp [hx]
    · refine h2.trans ?_
      by_cases hx : x = nl <;> simp [hx]

/-- After `view_change_core` the view is `old_view + 1` and the message
buffer is exactly the pre-view-change buffer. -/
theorem view_change_core_fields (s : Session) (old_view : Nat) :
    (view_change_core s old_view).message_buffer = s.message_buffer ∧
    (view_change_core s old_view).current_view = old_view + 1 := by
  unfold view_change_core
  dsimp only
  constructor
  · rw [(start_new_view_consensus_fields _ _).1, (collect_new_view_messages_fields _ _ _ _).1]
  · rw [(start_new_view_consensus_fields _ _).2, (collect_new_view_messages_fields _ _ _ _).2]

/-- C2 (counterexample): the claim's "no second QC for the same
(view, phase, value) is ever generated, no matter how many additional votes
arrive" fails as stated: after the session reaches phase `"completed"`, a
vote carrying phase `"completed"` passes the phase guard, its QC resets the
session phase to `"prepare"` (`get_next_phase` default), and one more
prepare vote — the pool still being at quorum — emits a second QC for
`(0, "prepare", 100)`. -/
theorem second_qc_for_same_key_counterexample :
    count_key (run_votes (baseSession 1 2) doublePhaseTrace).2 (0, "prepare", 100) = 2 := by
  rfl

/-- C2 (amended): for vote phases that votes actually carry
(`prepare`, `pre-commit`, `commit`), the aggregator emits at most one QC per
`(view, phase, value)` key over any trace: after a QC the session phase has
advanced and never returns, so the phase-drift guard drops every later vote
with the old phase before the quorum check. -/
theorem at_most_one_qc_per_key_for_vote_phases (s : Session) (ms : List VoteMsg)
    (hph : ∀ m ∈ ms, m.phase = "prepare" ∨ m.phase = "pre-commit" ∨ m.phase = "commit")
    (k : Nat × String × Int) :
    count_key (run_votes s ms).2 k ≤ 1 := by
  unfold run_votes
  exact run_votes_aux_at_most_one ms s [] hph (by simp) (fun k' => by simp [count_key]) k

/-- Witness for the amended C2 on a concrete one-vote trace. -/
theorem at_most_one_qc_per_key_for_vote_phases_witness :
    (∀ m ∈ [plainVote 0 0 "prepare"],
      m.phase = "prepare" ∨ m.phase = "pre-commit" ∨ m.phase = "commit") ∧
    count_key (run_votes (baseSession 1 2) [plainVote 0 0 "prepare"]).2 (0, "prepare", 100) ≤ 1 :=
  ⟨by decide, at_most_one_qc_per_key_for_vote_phases (baseSession 1 2)
    [plainVote 0 0 "prepare"] (by decide) (0, "prepare", 100)⟩

/-- C3 (counterexample): duplicate GroupVotes inflate the tally, so a QC is
emitted whose `signers` — 4 distinct ids — stay below
`globalQuorum(7) = 5` although its `totalWeight` is 6: each member vote at
or above the local quorum re-emits a GroupVote for the same key, and the
weights 1+2+1+2 double-count voters 1 and 4. -/
theorem qc_signers_below_quorum_counterexample :
    (run_votes (baseSession 7 2) memberQuorumTrace).2
      = [⟨"prepare", 0, 100, [1, 2, 4, 5], 6⟩] ∧
    ((⟨"prepare", 0, 100, [1, 2, 4, 5], 6⟩ : QC).signers.length < get_quorum_threshold 7) := by
  exact ⟨rfl, by decide⟩

/-- C3 (amended): every emitted QC has duplicate-free signers and a recorded
`totalWeight` at the global quorum; the number of *distinct* signers,
however, is not bounded below by the quorum. -/
theorem emitted_qc_distinct_signers_and_weight (s : Session) (ms : List VoteMsg) :
    ∀ q ∈ (run_votes s ms).2,
      q.signers.Nodup ∧ get_quorum_threshold s.nodeCount ≤ q.total_weight := by
  unfold run_votes
  exact run_votes_aux_qc_props ms s [] (by simp)

/-- Witness for the amended C3 on the concrete emitted QC. -/
theorem emitted_qc_distinct_signers_and_weight_witness :
    (⟨"prepare", 0, 100, [1, 2, 4, 5], 6⟩ : QC) ∈
      (run_votes (baseSession 7 2) memberQuorumTrace).2 ∧
    (⟨"prepare", 0, 100, [1, 2, 4, 5], 6⟩ : QC).signers.Nodup ∧
    get_quorum_threshold (baseSession 7 2).nodeCount
      ≤ (⟨"prepare", 0, 100, [1, 2, 4, 5], 6⟩ : QC).total_weight :=
  ⟨by decide,
   (emitted_qc_distinct_signers_and_weight (baseSession 7 2) memberQuorumTrace _ (by decide)).1,
   (emitted_qc_distinct_signers_and_weight (baseSession 7 2) memberQuorumTrace _ (by decide)).2⟩

/-- C4 (amended): Case A of the aggregator for a member vote in the current
view.  A vote not addressed to the member's group leader is dropped with no
change; otherwise the voter is recorded in the intra-group pool, and while
the pool is below `localQuorum(groupSize)` nothing else happens.  Once the
pool size is at the local quorum, this and *every* further member vote for
the key (emission is not idempotent) appends a GroupVote with
`weight = |pool|` to the vote log and feeds it into Case B as a vote from
the group leader to the global leader. -/
theorem member_vote_aggregation (s : Session) (m : VoteMsg) (gl gsize : Nat)
    (hview : m.view = s.current_view)
    (hrole : (get_topology_info m.view m.sender s.nodeCount s.branchCount).role = "member")
    (hpar : (get_topology_info m.view m.sender s.nodeCount s.branchCount).parent_id = some gl)
    (hsz : (get_topology_info m.view m.sender s.nodeCount s.branchCount).group_size = some gsize) :
    (m.target ≠ gl → handle_vote s m = (s, [])) ∧
    (m.target = gl →
      (member_pool_after s m gl).length < get_local_quorum_threshold gsize →
      handle_vote s m =
        ({ s with pending_group_votes := aupdate s.pending_group_votes (member_key m gl) (member_pool_after s m gl) }, [])) ∧
    (m.target = gl →
      get_local_quorum_threshold gsize ≤ (member_pool_after s m gl).length →
      handle_vote s m = process_global_vote
        ({ s with
            pending_group_votes := aupdate s.pending_group_votes (member_key m gl) (member_pool_after s m gl),
            messages_vote := s.messages_vote ++ [group_vote_of s m gl] })
        (group_vote_of s m gl)
        (get_topology_info m.view gl s.nodeCount s.branchCount).role ∧
      (handle_vote s m).1.messages_vote = s.messages_vote ++ [group_vote_of s m gl]) := by
  have hv1 : ¬ s.current_view < m.view := by omega
  have hv2 : ¬ m.view < s.current_view := by omega
  refine ⟨?_, ?_, ?_⟩
  · intro htgt
    rcases hhv : handle_vote s m with ⟨s', qs⟩
    unfold handle_vote at hhv
    dsimp only at hhv
    rw [if_neg hv1, if_neg hv2, if_pos hrole, hpar, hsz] at hhv
    dsimp only at hhv
    rw [if_pos htgt] at hhv
    exact hhv.symm
  · intro htgt hth
    simp only [member_pool_after, member_key] at hth
    rcases hhv : handle_vote s m with ⟨s', qs⟩
    unfold handle_vote at hhv
    dsimp only at hhv
    rw [if_neg hv1, if_neg hv2, if_pos hrole, hpar, hsz] at hhv
    dsimp only at hhv
    rw [if_neg (not_not.mpr htgt), if_pos hth] at hhv
    exact hhv.symm
  · intro htgt hth
    simp only [member_pool_after, member_key] at hth
    rcases hhv : handle_vote s m with ⟨s', qs⟩
    unfold handle_vote at hhv
    dsimp only at hhv
    rw [if_neg hv1, if_neg hv2, if_pos hrole, hpar, hsz] at hhv
    dsimp only at hhv
    rw [if_neg (not_not.mpr htgt), if_neg (Nat.not_lt.mpr hth)] at hhv
    constructor
    · exact hhv.symm
    · have hmsg := pgv_messages_vote
        ({ s with
            pending_group_votes := aupdate s.pending_group_votes (member_key m gl) (member_pool_after s m gl),
            messages_vote := s.messages_vote ++ [group_vote_of s m gl] })
        (group_vote_of s m gl)
        (get_topology_info m.view gl s.nodeCount s.branchCount).role
      have hhv' : process_global_vote
          ({ s with
              pending_group_votes := aupdate s.pending_group_votes (member_key m gl) (member_pool_after s m gl),
              messages_vote := s.messages_vote ++ [group_vote_of s m gl] })
          (group_vote_of s m gl)
          (get_topology_info m.view gl s.nodeCount s.branchCount).role = (s', qs) := hhv
      rw [hhv'] at hmsg
      exact hmsg

/-- C4 (counterexample): GroupVote emission is not idempotent per key.  With
N = 7, K = 2 (group {0,1,2} has local quorum 1), member 1's vote emits a
GroupVote of weight 1 for `(0, "prepare", 100, 0)` and member 2's vote for
the same key emits a second GroupVote, of weight 2, instead of none. -/
theorem duplicate_group_vote_counterexample :
    ((run_votes (baseSession 7 2) twoMemberVotes).1.messages_vote.filter
      (fun v => v.is_group_vote && v.sender == 0 && v.view == 0
        && v.phase == "prepare" && v.value == 100)).length = 2 := by
  rfl

/-- Witness for the amended C4, instantiating every hypothesis concretely:
member 4's vote addressed to a wrong target is dropped, and member 1's vote
to its group leader 0 reaches the local quorum of 1 and is turned into a
GroupVote appended to the vote log. -/
theorem member_vote_aggregation_witness :
    handle_vote (baseSession 7 2) (plainVote 4 0 "prepare") = (baseSession 7 2, []) ∧
    (handle_vote (baseSession 7 2) (plainVote 1 0 "prepare")).1.messages_vote
      = (baseSession 7 2).messages_vote
        ++ [group_vote_of (baseSession 7 2) (plainVote 1 0 "prepare") 0] := by
  constructor
  · exact (member_vote_aggregation (baseSession 7 2) (plainVote 4 0 "prepare") 3 3
      (by decide) (by decide) (by decide) (by decide)).1 (by decide)
  · exact ((member_vote_aggregation (baseSession 7 2) (plainVote 1 0 "prepare") 0 3
      (by decide) (by decide) (by decide) (by decide)).2.2 (by decide) (by decide)).2

/-- C6: stale votes are dropped with no state change, future votes are
buffered under their view with no other change, and `trigger_view_change`
replays each vote buffered for the new view through `handle_vote` exactly
once and deletes that buffer entry. -/
theorem vote_view_gating_and_replay :
    (∀ (s : Session) (m : VoteMsg), m.view < s.current_view → handle_vote s m = (s, [])) ∧
    (∀ (s : Session) (m : VoteMsg), s.current_view < m.view →
      handle_vote s m =
        ({ s with message_buffer := aupdate s.message_buffer m.view (alookupD s.message_buffer m.view [] ++ [m]) }, [])) ∧
    (∀ (s : Session) (old_view : Nat),
      (view_change_core s old_view).message_buffer = s.message_buffer ∧
      (view_change_core s old_view).current_view = old_view + 1) ∧
    (∀ (s : Session) (old_view : Nat),
      alookup (trigger_view_change s old_view).1.message_buffer (old_view + 1) = none) ∧
    (∀ (s : Session) (old_view : Nat) (votes : List VoteMsg),
      alookup s.message_buffer (old_view + 1) = some votes →
      trigger_view_change s old_view =
        ({ (run_votes (view_change_core s old_view) votes).1 with
            message_buffer := aerase (run_votes (view_change_core s old_view) votes).1.message_buffer (old_view + 1) },
         (run_votes (view_change_core s old_view) votes).2)) := by
  refine ⟨?_, ?_, fun s ov => view_change_core_fields s ov, ?_, ?_⟩
  · intro s m h
    rcases hhv : handle_vote s m with ⟨s', qs⟩
    unfold handle_vote at hhv
    dsimp only at hhv
    rw [if_neg (by omega), if_pos h] at hhv
    exact hhv.symm
  · intro s m h
    rcases hhv : handle_vote s m with ⟨s', qs⟩
    unfold handle_vote at hhv
    dsimp only at hhv
    rw [if_pos h] at hhv
    exact hhv.symm
  · intro s old_view
    unfold trigger_view_change
    dsimp only
    split
    case h_1 heq => simpa using heq
    case h_2 votes heq => exact alookup_aerase_self _ _
  · intro s old_view votes hbuf
    unfold trigger_view_change
    dsimp only
    split
    case h_1 heq =>
      rw [(view_change_core_fields s old_view).1, hbuf] at heq
      exact absurd heq (by simp)
    case h_2 votes2 heq =>
      rw [(view_change_core_fields s old_view).1, hbuf] at heq
      injection heq with heq2
      subst heq2
      rfl

/-- Witness for C6 on concrete inputs: a view-1 vote is buffered by the
view-0 session, a stale view-0 vote is dropped by a view-1 session, and the
buffer entry is gone after the view change. -/
theorem vote_view_gating_and_replay_witness :
    handle_vote { baseSession 4 2 with current_view := 1 } (plainVote 1 0 "prepare")
      = ({ baseSession 4 2 with current_view := 1 }, []) ∧
    (handle_vote (baseSession 4 2) { plainVote 1 0 "prepare" with view := 1 }).1.message_buffer
      = [(1, [{ plainVote 1 0 "prepare" with view := 1 }])] ∧
    alookup (trigger_view_change (baseSession 4 2) 0).1.message_buffer 1 = none := by
  refine ⟨?_, ?_, ?_⟩
  · exact vote_view_gating_and_replay.1 _ _ (by decide)
  · rw [vote_view_gating_and_replay.2.1 _ _ (by decide)]
    rfl
  · exact vote_view_gating_and_replay.2.2.2.1 (baseSession 4 2) 0

/-- The `consensus_finalized_view` guard: finalizing an already-finalized
view returns the session unchanged. -/
theorem finalize_consensus_guard (s : Session) (st d : String)
    (h : s.consensus_finalized_view = some s.current_view) :
    finalize_consensus s st d = s := by
  unfold finalize_consensus
  rw [if_pos h]

/-- After any `finalize_consensus` call the guard condition holds. -/
theorem finalize_consensus_sets_guard (s : Session) (st d : String) :
    (finalize_consensus s st d).consensus_finalized_view
      = some (finalize_consensus s st d).current_view := by
  unfold finalize_consensus
  split
  case isTrue h => exact h
  case isFalse h => rfl

/-- The `last_pre_prepare_view` guard: a repeated PRE-PREPARE attempt for
the current view returns the session unchanged. -/
theorem robot_send_pre_prepare_guard (s : Session) (hq : Option QC)
    (h : s.last_pre_prepare_view = some s.current_view) :
    robot_send_pre_prepare s hq = s := by
  unfold robot_send_pre_prepare
  rw [if_pos h]

/-- After any `robot_send_pre_prepare` call the guard condition holds. -/
theorem robot_send_pre_prepare_sets_guard (s : Session) (hq : Option QC) :
    (robot_send_pre_prepare s hq).last_pre_prepare_view
      = some (robot_send_pre_prepare s hq).current_view := by
  unfold robot_send_pre_prepare
  dsimp only
  split
  case isTrue h => exact h
  case isFalse h => split <;> rfl

/-- C8: finalization and PRE-PREPARE emission are per-view no-ops on
repetition: under the `consensusFinalizedView` (resp. `lastPrePrepareView`)
guard the session is returned unchanged, and composing either operation
with itself equals a single application. -/
theorem finalize_and_pre_prepare_idempotent :
    (∀ (s : Session) (st d : String), s.consensus_finalized_view = some s.current_view →
      finalize_consensus s st d = s) ∧
    (∀ (s : Session) (st d st2 d2 : String),
      finalize_consensus (finalize_consensus s st d) st2 d2 = finalize_consensus s st d) ∧
    (∀ (s : Session) (hq : Option QC), s.last_pre_prepare_view = some s.current_view →
      robot_send_pre_prepare s hq = s) ∧
    (∀ (s : Session) (hq hq2 : Option QC),
      robot_send_pre_prepare (robot_send_pre_prepare s hq) hq2 = robot_send_pre_prepare s hq) := by
  refine ⟨finalize_consensus_guard, ?_, robot_send_pre_prepare_guard, ?_⟩
  · intro s st d st2 d2
    exact finalize_consensus_guard _ _ _ (finalize_consensus_sets_guard s st d)
  · intro s hq hq2
    exact robot_send_pre_prepare_guard _ _ (robot_send_pre_prepare_sets_guard s hq)

/-- Witness for C8 on a concrete already-finalized /
already-proposed session. -/
theorem finalize_and_pre_prepare_idempotent_witness :
    finalize_consensus { baseSession 4 2 with consensus_finalized_view := some 0 }
        "Consensus Success" "done"
      = { baseSession 4 2 with consensus_finalized_view := some 0 } ∧
    robot_send_pre_prepare { baseSession 4 2 with last_pre_prepare_view := some 0 } none
      = { baseSession 4 2 with last_pre_prepare_view := some 0 } :=
  ⟨finalize_and_pre_prepare_idempotent.1 _ "Consensus Success" "done" (by decide),
   finalize_and_pre_prepare_idempotent.2.2.1 _ none (by decide)⟩

/-- The table the source computes coincides with the spec's formulas. -/
theorem complexity_tables_agree (n k a : Nat) :
    complexity_comparison_of n k a = complexity_comparison_spec n k a := by
  unfold complexity_comparison_of complexity_comparison_spec
  dsimp only
  have hif : ∀ th : Nat,
      (if a > 0 then ((th : ℚ)) / (a : ℚ) else 0)
        = (if a = 0 then 0 else ((th : ℚ)) / (a : ℚ)) := by
    intro th
    rcases Nat.eq_zero_or_pos a with ha | ha
    · subst ha
      simp
    · rw [if_pos ha, if_neg (Nat.pos_iff_ne_zero.mp ha)]
  simp only [hif, pow_two, mul_assoc]

/-- C9: the consensus result built by finalization carries exactly the
spec-mandated comparison table over N = nodeCount, K = max(1, branchCount),
g = N div K and actualDouble = `networkStats.totalMessagesSent`, and the
companion `network_stats` block records those same exact integers. -/
theorem finalize_complexity_table (s : Session) (st d : String)
    (hfin : s.consensus_finalized_view ≠ some s.current_view) :
    ∃ r, (finalize_consensus s st d).consensus_result = some r ∧
      r.stats.complexity_comparison
        = complexity_comparison_spec s.nodeCount s.branchCount s.total_messages_sent ∧
      r.stats.actual_messages = s.total_messages_sent ∧
      r.stats.node_count = s.nodeCount ∧
      r.stats.branch_count = s.branchCount := by
  unfold finalize_consensus
  rw [if_neg hfin]
  exact ⟨_, rfl, complexity_tables_agree _ _ _, rfl, rfl, rfl⟩

/-- Witness for C9: finalizing an N = 4, K = 2 session that counted 8 sends
yields the spec table, whose PBFT ratio is 2·4²/8 = 4. -/
theorem finalize_complexity_table_witness :
    (∃ r, (finalize_consensus { baseSession 4 2 with total_messages_sent := 8 }
        "Consensus Success" "done").consensus_result = some r ∧
      r.stats.complexity_comparison = complexity_comparison_spec 4 2 8 ∧
      r.stats.actual_messages = 8 ∧
      r.stats.node_count = 4 ∧
      r.stats.branch_count = 2) ∧
    (complexity_comparison_spec 4 2 8).pbft_pure_speedup = 4 :=
  ⟨finalize_complexity_table { baseSession 4 2 with total_messages_sent := 8 }
      "Consensus Success" "done" (by decide),
   by norm_num [complexity_comparison_spec]⟩

/-- C10: a Case B vote in the current view addressed to the global leader is
tallied *before* the phase-drift guard runs: when the guard then drops the
vote, no QC is emitted and the phase is unchanged, but the pending pool
keeps the added weight and appended contribution. -/
theorem tally_recorded_before_phase_guard (s : Session) (m : VoteMsg)
    (hview : m.view = s.current_view)
    (hrole : (get_topology_info m.view m.sender s.nodeCount s.branchCount).role = "group_leader"
      ∨ (get_topology_info m.view m.sender s.nodeCount s.branchCount).role = "root")
    (htgt : m.target = get_current_leader m.view s.nodeCount)
    (hphase : m.phase ≠ s.phase) :
    (handle_vote s m).2 = [] ∧
    pending_total (handle_vote s m).1 (m.view, m.phase, m.value)
      = pending_total s (m.view, m.phase, m.value) + vote_weight m ∧
    pending_contribs (handle_vote s m).1 (m.view, m.phase, m.value)
      = pending_contribs s (m.view, m.phase, m.value)
        ++ [⟨m.sender, vote_weight m, vote_voter_ids m⟩] ∧
    (handle_vote s m).1.phase = s.phase := by
  have hv1 : ¬ s.current_view < m.view := by omega
  have hv2 : ¬ m.view < s.current_view := by omega
  have hmem : ¬ (get_topology_info m.view m.sender s.nodeCount s.branchCount).role = "member" := by
    rcases hrole with h | h <;> rw [h] <;> decide
  rcases hhv : handle_vote s m with ⟨s', qs⟩
  unfold handle_vote at hhv
  dsimp only at hhv
  rw [if_neg hv1, if_neg hv2, if_neg hmem] at hhv
  unfold process_global_vote at hhv
  dsimp only at hhv
  rw [if_pos hrole, if_neg (not_not.mpr htgt), if_pos hphase] at hhv
  injection hhv with h1 h2
  subst h1
  subst h2
  refine ⟨rfl, ?_, ?_, rfl⟩
  · simp [pending_total, alookupD, alookup_aupdate_self]
  · simp [pending_contribs, alookupD, alookup_aupdate_self]

/-- Witness for C10: node 2 (a group leader for N = 4, K = 2, view 0) votes
`prepare` to leader 0 while the session phase is `pre-commit`; the vote is
dropped but the tally for `(0, "prepare", 100)` grows from 0 to 1. -/
theorem tally_recorded_before_phase_guard_witness :
    (handle_vote { baseSession 4 2 with phase := "pre-commit" } (plainVote 2 0 "prepare")).2 = [] ∧
    pending_total (handle_vote { baseSession 4 2 with phase := "pre-commit" }
        (plainVote 2 0 "prepare")).1 (0, "prepare", 100)
      = pending_total { baseSession 4 2 with phase := "pre-commit" } (0, "prepare", 100)
        + vote_weight (plainVote 2 0 "prepare") ∧
    (handle_vote { baseSession 4 2 with phase := "pre-commit" }
        (plainVote 2 0 "prepare")).1.phase = "pre-commit" := by
  refine ⟨?_, ?_, ?_⟩
  · exact (tally_recorded_before_phase_guard _ _ (by decide) (Or.inl (by decide))
      (by decide) (by decide)).1
  · exact (tally_recorded_before_phase_guard _ _ (by decide) (Or.inl (by decide))
      (by decide) (by decide)).2.1
  · exact (tally_recorded_before_phase_guard _ _ (by decide) (Or.inl (by decide))
      (by decide) (by decide)).2.2.2
